import Mathlib

/-!
Verification development for the VirtuMenu experience repository
(`src/pages/Menu.tsx`, which also contains the `SearchBar` component, and
`src/components/MenuItem.tsx`).

Strings are modelled as `List Char` (a query or title is the sequence of
characters the user or the code produced); JavaScript's `toLowerCase`,
`includes`, `trim` and the stable `Array.prototype.sort` are modelled by
executable Lean functions below.  Every definition is translated from the
TypeScript source; definitions written from the specification's words are
explicitly marked as such.
-/

namespace VirtuMenu

/-- ASCII model of JavaScript `String.prototype.toLowerCase`
(queries and names in this repository are ASCII, where the two agree). -/
def lowerStr (s : List Char) : List Char := s.map Char.toLower

/-- Model of JavaScript `String.prototype.includes`: `hasSubstr s sub`
is `true` iff `sub` occurs contiguously inside `s`. -/
def hasSubstr : List Char → List Char → Bool
  | [], sub => sub.isPrefixOf ([] : List Char)
  | s@(_ :: t), sub => sub.isPrefixOf s || hasSubstr t sub

/-- Model of the guard `!searchText.trim()` in `handleSearch`:
a JavaScript string trims to the empty (falsy) string exactly when every
character is whitespace, in particular when it is empty. -/
def isBlank (s : List Char) : Bool := s.all Char.isWhitespace

/-- A configurable option of a menu item (`item.options` entries);
the code only reads its `required` flag. -/
structure ItemOption where
  optName : List Char
  required : Bool
deriving DecidableEq

/-- A menu item, as converted for the frontend in `Menu.tsx`
(`convertCategoryToFrontendFormat`): identifier, name, description, price,
boolean flags, optional nutrition values and optional configurable options.
`protein` (grams) is modelled as a natural number. -/
structure MenuItem where
  id : List Char
  name : List Char
  description : List Char
  price : Rat
  popular : Bool
  spicy : Bool
  vegetarian : Bool
  glutenFree : Bool
  protein : Option Nat
  calories : Option Nat
  options : Option (List ItemOption)
deriving DecidableEq

/-- A menu category: identifier (slug), display name, ordered items. -/
structure MenuCategory where
  id : List Char
  name : List Char
  items : List MenuItem
deriving DecidableEq

/-- The result shape produced by the `SearchBar` handlers:
a title and an ordered list of matched items. -/
structure SearchResult where
  title : List Char
  items : List MenuItem
deriving DecidableEq

/-- The eight intents of the rule-based classifier in `handleSearch`. -/
inductive Intent where
  | popular
  | spicy
  | vegetarian
  | glutenFree
  | highestProtein
  | quickLunch
  | languageSwitch
  | genericTextSearch
deriving DecidableEq

/-- The branch structure of `handleSearch` (`SearchBar`, Menu.tsx lines
414-432), applied to the already lower-cased query: the nested
`if`/`else if` chain testing trigger substrings in priority order. -/
def classify (searchLower : List Char) : Intent :=
  if hasSubstr searchLower "popular".toList || hasSubstr searchLower "best seller".toList then
    .popular
  else if hasSubstr searchLower "spicy".toList || hasSubstr searchLower "spiciest".toList then
    .spicy
  else if hasSubstr searchLower "vegetarian".toList || hasSubstr searchLower "vegan".toList then
    .vegetarian
  else if hasSubstr searchLower "gluten".toList then
    .glutenFree
  else if hasSubstr searchLower "protein".toList || hasSubstr searchLower "highest protein".toList then
    .highestProtein
  else if hasSubstr searchLower "quick".toList || hasSubstr searchLower "fast".toList || hasSubstr searchLower "lunch".toList then
    .quickLunch
  else if hasSubstr searchLower "spanish".toList || searchLower == "spanish".toList then
    .languageSwitch
  else
    .genericTextSearch

/-- Model of `handlePopularQuery`: items flagged popular, in catalog order. -/
def handlePopularQuery (cats : List MenuCategory) : SearchResult :=
  { title := "Most Popular Dishes".toList
    items := (cats.flatMap (·.items)).filter (·.popular) }

/-- Model of `handleSpicyQuery`: items flagged spicy, in catalog order. -/
def handleSpicyQuery (cats : List MenuCategory) : SearchResult :=
  { title := "Spicy Dishes".toList
    items := (cats.flatMap (·.items)).filter (·.spicy) }

/-- Model of `handleVegetarianQuery`: items flagged vegetarian, in catalog order. -/
def handleVegetarianQuery (cats : List MenuCategory) : SearchResult :=
  { title := "Vegetarian Options".toList
    items := (cats.flatMap (·.items)).filter (·.vegetarian) }

/-- Model of `handleGlutenFreeQuery`: items flagged gluten-free, in catalog order. -/
def handleGlutenFreeQuery (cats : List MenuCategory) : SearchResult :=
  { title := "Gluten-Free Options".toList
    items := (cats.flatMap (·.items)).filter (·.glutenFree) }

/-- The comparator of `handleProteinQuery`:
`(a, b) => (b.protein || 0) - (a.protein || 0)` places `a` no later than
`b` exactly when the comparator value is `≤ 0`, i.e. when
`b.protein || 0 ≤ a.protein || 0`. -/
def proteinLe (a b : MenuItem) : Bool := b.protein.getD 0 ≤ a.protein.getD 0

/-- Model of `handleProteinQuery`: flatten all items, keep those with a defined
protein value, sort descending by protein and take the first 5.
`Array.prototype.sort` is stable (ES2019), modelled by `List.mergeSort`. -/
def handleProteinQuery (cats : List MenuCategory) : SearchResult :=
  let allItems := cats.flatMap (·.items)
  let sortedByProtein :=
    (((allItems.filter (fun item => item.protein != none)).mergeSort proteinLe).take 5)
  { title := "Highest Protein Dishes".toList
    items := sortedByProtein }

/-- Model of `handleQuickOptions`: flatten all items; keep an item when the first
category containing an item with the same `id` has slug `starters` or
`soups`, or when the item's name contains `fried rice` case-insensitively. -/
def handleQuickOptions (cats : List MenuCategory) : SearchResult :=
  { title := "Quick Lunch Options".toList
    items := (cats.flatMap (·.items)).filter fun item =>
      let categoryId :=
        (cats.find? fun cat => cat.items.any fun i => i.id == item.id).map (·.id)
      categoryId == some "starters".toList
        || categoryId == some "soups".toList
        || hasSubstr (lowerStr item.name) "fried rice".toList }

/-- The English→Spanish category-name table built inside `handleSpanishQuery`. -/
def translations : List (List Char × List Char) :=
  [("Starters".toList, "Entrantes".toList),
   ("Soups".toList, "Sopas".toList),
   ("Curries".toList, "Curry".toList),
   ("Noodles".toList, "Fideos".toList),
   ("Rice Dishes".toList, "Platos de Arroz".toList),
   ("Signature Specials".toList, "Especialidades".toList),
   ("Desserts".toList, "Postres".toList),
   ("Drinks".toList, "Bebidas".toList)]

/-- The local `spanishResponse` string built inside `handleSpanishQuery`.
It is computed by the source and then never used: it does not appear in
the function's return value. -/
def spanishResponse : List Char :=
  "¡Aquí está nuestro menú en español!\n\n".toList ++
    List.intercalate "\n".toList
      (translations.map fun p => p.1 ++ " → ".toList ++ p.2)

/-- Return value of `handleSpanishQuery`: the title `Spanish Menu` and an
empty item list.  The translation table only feeds `spanishResponse`,
which the function drops. -/
def handleSpanishQuery : SearchResult :=
  { title := "Spanish Menu".toList
    items := [] }

/-- Model of `textSearch`: items whose lower-cased name or description contains the
search text, in catalog order; the title quotes the search text it was
given (`handleSearch` passes it the lower-cased query). -/
def textSearch (cats : List MenuCategory) (searchText : List Char) : SearchResult :=
  { title := "Search Results for \"".toList ++ searchText ++ "\"".toList
    items := (cats.flatMap (·.items)).filter fun item =>
      hasSubstr (lowerStr item.name) searchText
        || hasSubstr (lowerStr item.description) searchText }

/-- Model of `handleSearch` (Menu.tsx lines 404-440): the value passed to
`onSearchResults`, or `none` when nothing is emitted.  A blank query
returns before classifying; the `spanish` branch calls
`handleSpanishQuery`, discards its result and returns early without
calling `onSearchResults`. -/
def handleSearch (cats : List MenuCategory) (searchText : List Char) : Option SearchResult :=
  if isBlank searchText then none
  else
    let searchLower := lowerStr searchText
    if hasSubstr searchLower "popular".toList || hasSubstr searchLower "best seller".toList then
      some (handlePopularQuery cats)
    else if hasSubstr searchLower "spicy".toList || hasSubstr searchLower "spiciest".toList then
      some (handleSpicyQuery cats)
    else if hasSubstr searchLower "vegetarian".toList || hasSubstr searchLower "vegan".toList then
      some (handleVegetarianQuery cats)
    else if hasSubstr searchLower "gluten".toList then
      some (handleGlutenFreeQuery cats)
    else if hasSubstr searchLower "protein".toList || hasSubstr searchLower "highest protein".toList then
      some (handleProteinQuery cats)
    else if hasSubstr searchLower "quick".toList || hasSubstr searchLower "fast".toList || hasSubstr searchLower "lunch".toList then
      some (handleQuickOptions cats)
    else if hasSubstr searchLower "spanish".toList || searchLower == "spanish".toList then
      let _ := handleSpanishQuery
      none
    else
      some (textSearch cats searchLower)

/-- A cart line as forwarded to the cart collaborator's `addToCart`. -/
structure CartLine where
  id : List Char
  name : List Char
  price : Rat
  quantity : Nat
deriving DecidableEq

/-- An observable effect fired by the item card's add-to-cart handler. -/
inductive CardEffect where
  | navigate (dest : List Char)
  | addLine (line : CartLine)
deriving DecidableEq

/-- Test `item.options?.some(option => option.required)` of `handleAddToCart`;
absent `options` is falsy. -/
def hasRequiredOption (item : MenuItem) : Bool :=
  (item.options.getD []).any (·.required)

/-- Model of `handleAddToCart` (MenuItem.tsx lines 19-39), as the effects fired and
the card's quantity afterwards.  With a required option the handler only
navigates to `/item/<id>` and returns; otherwise it makes one cart call
forwarding (id, name, price, quantity) and resets the quantity to 1. -/
def handleAddToCart (item : MenuItem) (quantity : Nat) : List CardEffect × Nat :=
  if hasRequiredOption item then
    ([CardEffect.navigate ("/item/".toList ++ item.id)], quantity)
  else
    ([CardEffect.addLine
        { id := item.id, name := item.name, price := item.price, quantity := quantity }], 1)

/-- A click on one of the two quantity controls of the item card. -/
inductive QtyEvent where
  | increment
  | decrement
deriving DecidableEq

/-- The quantity the item card starts with: `useState(1)`. -/
def initialQuantity : Nat := 1

/-- Model of `incrementQuantity` and `decrementQuantity` (MenuItem.tsx lines 41-53):
increment adds 1; decrement subtracts 1 only when the quantity is
strictly greater than 1. -/
def qtyStep (quantity : Nat) : QtyEvent → Nat
  | .increment => quantity + 1
  | .decrement => if quantity > 1 then quantity - 1 else quantity

/-- Part of the regex `/Search Results for "(.+?)"|(.+)/` used by
`handleSearchResults`: the characters before the first `"` of the list,
`none` when no `"` occurs. -/
def takeUntilQuote : List Char → Option (List Char)
  | [] => none
  | c :: cs => if c = '"' then some [] else (takeUntilQuote cs).map (c :: ·)

/-- Group 1 of the regex against the part of the title following the
literal `Search Results for "`: the lazy `(.+?)` followed by `"` matches
one character and then the characters up to the next `"`. -/
def group1After : List Char → Option (List Char)
  | [] => none
  | c :: cs => (takeUntilQuote cs).map (c :: ·)

/-- The literal prefix of the regex's first alternative. -/
def srfLiteral : List Char := "Search Results for \"".toList

/-- Value `m[1] || m[2] || ""` of `results.title.match(/Search Results for
"(.+?)"|(.+)/)` (Menu.tsx line 57), for titles without line terminators:
the first alternative's group when it matches at the start of the title,
otherwise the whole title via `(.+)`; `none` when the regex does not match
at all (empty title), in which case the code leaves the stored query
unchanged. -/
def extractQuery (title : List Char) : Option (List Char) :=
  if srfLiteral.isPrefixOf title then
    match group1After (title.drop srfLiteral.length) with
    | some q => some q
    | none => if title.isEmpty then none else some title
  else if title.isEmpty then none else some title

/-- The search-related state of the `Menu` page: the query stored by
`setCurrentQuery` (fed to the external `useMenuSearch` hook) and the
stored search results. -/
structure MenuState where
  currentQuery : List Char
  searchResults : Option SearchResult
deriving DecidableEq

/-- Model of `handleSearchResults` (Menu.tsx lines 55-71): extracts a query from the
result's title (leaving the stored query unchanged when the regex fails),
stores the results, and reports `results.items.length` in the analytics
event.  Returns the new state and the analytics count. -/
def handleSearchResults (st : MenuState) (results : SearchResult) : MenuState × Nat :=
  ({ currentQuery := (extractQuery results.title).getD st.currentQuery
     searchResults := some results },
   results.items.length)

/-- The item list the search branch of `Menu` renders (Menu.tsx lines
208-225): `searchItems` from the external `useMenuSearch(currentQuery)`
hook — modelled as the abstract function `ext` — not the classifier's
`searchResults.items`; `none` when no search is active (the category view
is shown instead). -/
def renderedSearchItems (st : MenuState) (ext : List Char → List MenuItem) :
    Option (List MenuItem) :=
  st.searchResults.map fun _ => ext st.currentQuery

/-! ### Helper lemmas -/

theorem isPrefixOf_append (l x : List Char) : l.isPrefixOf (l ++ x) = true := by
  induction l with
  | nil => simp
  | cons a t ih => simp [List.isPrefixOf, ih]

theorem hasSubstr_self (l : List Char) : hasSubstr l l = true := by
  cases l with
  | nil => rfl
  | cons a t =>
    have := isPrefixOf_append (a :: t) []
    simp at this
    simp [hasSubstr, this]

/-- Dispatch `handleSearch` factored through the intent classifier: the dispatch
branch taken is exactly the branch `classify` assigns to the lower-cased
query. -/
theorem handleSearch_by_intent (cats : List MenuCategory) (q : List Char) :
    handleSearch cats q =
      if isBlank q then none
      else
        match classify (lowerStr q) with
        | .popular => some (handlePopularQuery cats)
        | .spicy => some (handleSpicyQuery cats)
        | .vegetarian => some (handleVegetarianQuery cats)
        | .glutenFree => some (handleGlutenFreeQuery cats)
        | .highestProtein => some (handleProteinQuery cats)
        | .quickLunch => some (handleQuickOptions cats)
        | .languageSwitch => none
        | .genericTextSearch => some (textSearch cats (lowerStr q)) := by
  unfold handleSearch classify
  dsimp only
  split_ifs <;> rfl

/-! ### C3 — the LANGUAGE_SWITCH branch emits nothing -/

/-- C3: for the query `spanish` — classified LANGUAGE_SWITCH — the dispatch
emits nothing to the consumer (`onSearchResults` is never called): the
result `handleSpanishQuery` builds, an empty item list titled
`Spanish Menu`, is discarded by `handleSearch`, and the translation table
only feeds the unused local `spanishResponse`.  This contradicts the
claim that an empty item list paired with the translation table reaches
the consumer; the code drops both. -/
theorem spanish_query_emits_nothing (cats : List MenuCategory) :
    handleSearch cats "spanish".toList = none ∧
    handleSpanishQuery.items = [] ∧
    handleSpanishQuery.title = "Spanish Menu".toList := by
  refine ⟨?_, rfl, rfl⟩
  rw [handleSearch_by_intent]
  have hb : isBlank "spanish".toList = false := by decide
  have hc : classify (lowerStr "spanish".toList) = Intent.languageSwitch := by decide
  rw [hc]
  simp [hb]

/-! ### C6 — add to cart -/

/-- C6: on "add to cart", an item with a required configurable option only
fires a navigation to its detail view (no cart call, quantity unchanged);
otherwise exactly one cart call forwards (id, name, price, quantity) and
the local quantity resets to 1. -/
theorem handleAddToCart_spec (item : MenuItem) (q : Nat) :
    (hasRequiredOption item = true →
      (handleAddToCart item q).1 = [CardEffect.navigate ("/item/".toList ++ item.id)] ∧
      ((handleAddToCart item q).1.all fun e =>
        match e with
        | CardEffect.addLine _ => false
        | _ => true) = true ∧
      (handleAddToCart item q).2 = q) ∧
    (hasRequiredOption item = false →
      (handleAddToCart item q).1 =
        [CardEffect.addLine
          { id := item.id, name := item.name, price := item.price, quantity := q }] ∧
      (handleAddToCart item q).2 = 1) := by
  constructor <;> intro h <;> simp [handleAddToCart, h]

/-! ### C7 — blank queries are a no-op -/

/-- C7: an empty or whitespace-only query makes the search dispatch a
no-op: `handleSearch` returns before classifying, and nothing is passed
to `onSearchResults`. -/
theorem blank_query_noop (cats : List MenuCategory) (q : List Char)
    (h : isBlank q = true) : handleSearch cats q = none := by
  simp [handleSearch, h]

/-- Witness for C7 at the whitespace-only query `"   "`. -/
theorem blank_query_noop_witness :
    isBlank "   ".toList = true ∧ handleSearch [] "   ".toList = none :=
  ⟨by decide, blank_query_noop [] "   ".toList (by decide)⟩

/-! ### C9 — the card quantity never drops below 1 -/

/-- C9: the item card's quantity starts at 1, increment adds exactly 1,
decrement subtracts 1 only when the quantity is strictly greater than 1
(otherwise it is left unchanged), and consequently no sequence of clicks
can bring the quantity below 1. -/
theorem quantity_ge_one (evs : List QtyEvent) (q : Nat) :
    1 ≤ List.foldl qtyStep initialQuantity evs ∧
    initialQuantity = 1 ∧
    qtyStep q QtyEvent.increment = q + 1 ∧
    (1 < q → qtyStep q QtyEvent.decrement = q - 1) ∧
    (q ≤ 1 → qtyStep q QtyEvent.decrement = q) := by
  refine ⟨?_, rfl, rfl, ?_, ?_⟩
  · have inv : ∀ (l : List QtyEvent) (n : Nat), 1 ≤ n → 1 ≤ List.foldl qtyStep n l := by
      intro l
      induction l with
      | nil => intro n hn; simpa using hn
      | cons e t ih =>
        intro n hn
        apply ih
        cases e with
        | increment => simp only [qtyStep]; omega
        | decrement => simp only [qtyStep]; split <;> omega
    exact inv evs 1 le_rfl
  · intro h; simp only [qtyStep]; split <;> omega
  · intro h; simp only [qtyStep]; split <;> omega

/-- Witness for C9: after increment, decrement, decrement the quantity is
still at least 1, and decrement at 2 yields 1. -/
theorem quantity_ge_one_witness :
    1 ≤ List.foldl qtyStep initialQuantity
        [QtyEvent.increment, QtyEvent.decrement, QtyEvent.decrement] ∧
    qtyStep 2 QtyEvent.decrement = 2 - 1 :=
  ⟨(quantity_ge_one [QtyEvent.increment, QtyEvent.decrement, QtyEvent.decrement] 2).1,
   (quantity_ge_one [QtyEvent.increment, QtyEvent.decrement, QtyEvent.decrement] 2).2.2.2.1
     (by decide)⟩

/-! ### Concrete sample data for witnesses -/

/-- A sample item without required options (used by witnesses). -/
def padThaiItem : MenuItem :=
  { id := "pad-thai".toList
    name := "Pad Thai".toList
    description := "Rice noodles with tamarind sauce".toList
    price := 13
    popular := true
    spicy := false
    vegetarian := false
    glutenFree := false
    protein := some 20
    calories := some 600
    options := none }

/-- A sample item with a required configurable option (used by witnesses). -/
def greenCurryItem : MenuItem :=
  { id := "green-curry".toList
    name := "Green Curry".toList
    description := "Thai green curry with bamboo shoots".toList
    price := 15
    popular := false
    spicy := true
    vegetarian := false
    glutenFree := true
    protein := some 25
    calories := some 550
    options := some [{ optName := "Meat choice".toList, required := true }] }

/-- A sample one-category catalog (used by witnesses). -/
def demoCatalog : List MenuCategory :=
  [{ id := "noodles".toList, name := "Noodles".toList, items := [padThaiItem] }]

/-- Witness for C6: the required-option item only navigates and keeps
quantity 2; the plain item produces exactly one cart call with quantity 3
and resets to 1. -/
theorem handleAddToCart_spec_witness :
    ((handleAddToCart greenCurryItem 2).1 =
        [CardEffect.navigate ("/item/".toList ++ greenCurryItem.id)] ∧
      ((handleAddToCart greenCurryItem 2).1.all fun e =>
        match e with
        | CardEffect.addLine _ => false
        | _ => true) = true ∧
      (handleAddToCart greenCurryItem 2).2 = 2) ∧
    ((handleAddToCart padThaiItem 3).1 =
        [CardEffect.addLine
          { id := padThaiItem.id, name := padThaiItem.name, price := padThaiItem.price,
            quantity := 3 }] ∧
      (handleAddToCart padThaiItem 3).2 = 1) :=
  ⟨(handleAddToCart_spec greenCurryItem 2).1 (by decide),
   (handleAddToCart_spec padThaiItem 3).2 (by decide)⟩

/-! ### C1 — priority order of the classifier -/

/-- The classifier's rules read as an ordered list of (trigger substrings,
intent) pairs, written from the specification's priority table. -/
def triggerRules : List (List (List Char) × Intent) :=
  [(["popular".toList, "best seller".toList], Intent.popular),
   (["spicy".toList, "spiciest".toList], Intent.spicy),
   (["vegetarian".toList, "vegan".toList], Intent.vegetarian),
   (["gluten".toList], Intent.glutenFree),
   (["protein".toList, "highest protein".toList], Intent.highestProtein),
   (["quick".toList, "fast".toList, "lunch".toList], Intent.quickLunch),
   (["spanish".toList], Intent.languageSwitch)]

/-- First-match-wins evaluation of an ordered rule list, written from the
specification's words; falls through to GENERIC_TEXT_SEARCH. -/
def firstMatchAux (q : List Char) : List (List (List Char) × Intent) → Intent
  | [] => Intent.genericTextSearch
  | r :: rs => if r.1.any (fun t => hasSubstr q t) then r.2 else firstMatchAux q rs

/-- The specification-side classifier: first matching rule of
`triggerRules` wins. -/
def firstMatchIntent (q : List Char) : Intent := firstMatchAux q triggerRules

theorem spanish_cond_eq (q : List Char) :
    (hasSubstr q "spanish".toList || q == "spanish".toList) = hasSubstr q "spanish".toList := by
  cases h : q == "spanish".toList with
  | false => simp
  | true =>
    have hq : q = "spanish".toList := eq_of_beq h
    subst hq
    simp [hasSubstr_self]

/-- C1: on every non-blank query the nested `if`/`else if` chain of
`handleSearch` is exactly first-match-wins evaluation of the ordered rule
list (the redundant `searchLower === 'spanish'` disjunct changes nothing,
since a string always contains itself); in particular a query containing
`spicy` is classified SPICY iff it contains neither `popular` nor
`best seller`. -/
theorem classify_priority_order (q : List Char) (_hq : isBlank q = false) :
    classify q = firstMatchIntent q ∧
    (hasSubstr q "spicy".toList = true →
      (classify q = Intent.spicy ↔
        hasSubstr q "popular".toList = false ∧
        hasSubstr q "best seller".toList = false)) := by
  constructor
  · unfold classify
    rw [spanish_cond_eq]
    simp only [firstMatchIntent, triggerRules, firstMatchAux, List.any_cons, List.any_nil,
      Bool.or_false, Bool.or_assoc]
  · intro hspicy
    cases hpop : hasSubstr q "popular".toList
    · cases hbs : hasSubstr q "best seller".toList
      · have hcl : classify q = Intent.spicy := by
          unfold classify
          rw [hpop, hbs, hspicy]
          simp
        simp [hcl, hpop, hbs]
      · have hcl : classify q = Intent.popular := by
          unfold classify
          rw [hbs]
          simp
        simp [hcl, hbs]
    · have hcl : classify q = Intent.popular := by
        unfold classify
        rw [hpop]
        simp
      simp [hcl, hpop]

/-- Witness for C1 at the query `spicy tofu`. -/
theorem classify_priority_order_witness :
    classify "spicy tofu".toList = firstMatchIntent "spicy tofu".toList ∧
    (hasSubstr "spicy tofu".toList "spicy".toList = true →
      (classify "spicy tofu".toList = Intent.spicy ↔
        hasSubstr "spicy tofu".toList "popular".toList = false ∧
        hasSubstr "spicy tofu".toList "best seller".toList = false)) :=
  classify_priority_order "spicy tofu".toList (by decide)

/-! ### C2 — the LANGUAGE_SWITCH trigger is a substring test -/

/-- The trigger conditions of the six rules with priority above the
`spanish` branch, combined. -/
def matchesHigherTrigger (s : List Char) : Bool :=
  hasSubstr s "popular".toList || hasSubstr s "best seller".toList ||
  hasSubstr s "spicy".toList || hasSubstr s "spiciest".toList ||
  hasSubstr s "vegetarian".toList || hasSubstr s "vegan".toList ||
  hasSubstr s "gluten".toList ||
  hasSubstr s "protein".toList || hasSubstr s "highest protein".toList ||
  hasSubstr s "quick".toList || hasSubstr s "fast".toList || hasSubstr s "lunch".toList

/-- Counterexample to C2 as stated: the lower-cased query `spanish food`
is not exactly `spanish` and matches no higher-priority trigger, yet the
classifier selects LANGUAGE_SWITCH, not GENERIC_TEXT_SEARCH — the code
tests `includes('spanish')`, a substring test. -/
theorem languageSwitch_not_exact_counterexample :
    lowerStr "spanish food".toList ≠ "spanish".toList ∧
    matchesHigherTrigger (lowerStr "spanish food".toList) = false ∧
    classify (lowerStr "spanish food".toList) = Intent.languageSwitch := by
  decide

/-- C2 (amended): when no higher-priority trigger matches, the classifier
selects LANGUAGE_SWITCH exactly when the lower-cased query contains
`spanish` as a substring, and GENERIC_TEXT_SEARCH exactly when it does
not; exactness of the match is irrelevant. -/
theorem languageSwitch_iff_contains_spanish (s : List Char)
    (h : matchesHigherTrigger s = false) :
    (classify s = Intent.languageSwitch ↔ hasSubstr s "spanish".toList = true) ∧
    (classify s = Intent.genericTextSearch ↔ hasSubstr s "spanish".toList = false) := by
  simp only [matchesHigherTrigger, Bool.or_eq_false_iff] at h
  obtain ⟨⟨⟨⟨⟨⟨⟨⟨⟨⟨⟨h1, h2⟩, h3⟩, h4⟩, h5⟩, h6⟩, h7⟩, h8⟩, h9⟩, h10⟩, h11⟩, h12⟩ := h
  cases hsp : hasSubstr s "spanish".toList
  · have hcl : classify s = Intent.genericTextSearch := by
      unfold classify
      rw [spanish_cond_eq, h1, h2, h3, h4, h5, h6, h7, h8, h9, h10, h11, h12, hsp]
      simp
    simp [hcl]
  · have hcl : classify s = Intent.languageSwitch := by
      unfold classify
      rw [spanish_cond_eq, h1, h2, h3, h4, h5, h6, h7, h8, h9, h10, h11, h12, hsp]
      simp
    simp [hcl]

/-- Witness for C2 (amended) at the lower-cased query `spanish food`. -/
theorem languageSwitch_iff_contains_spanish_witness :
    (classify "spanish food".toList = Intent.languageSwitch ↔
      hasSubstr "spanish food".toList "spanish".toList = true) ∧
    (classify "spanish food".toList = Intent.genericTextSearch ↔
      hasSubstr "spanish food".toList "spanish".toList = false) :=
  languageSwitch_iff_contains_spanish "spanish food".toList (by decide)

/-! ### C5 — generic text search -/

/-- Counterexample to C5 as stated: for the typed query `Pad` the emitted
title quotes the lower-cased query `pad`, not the original query as the
user typed it — `textSearch` receives `searchLower`. -/
theorem searchTitle_lowercased_counterexample :
    (handleSearch demoCatalog "Pad".toList).map SearchResult.title =
      some "Search Results for \"pad\"".toList ∧
    "Search Results for \"pad\"".toList ≠ "Search Results for \"Pad\"".toList := by
  decide

/-- C5 (amended): a non-blank query classified GENERIC_TEXT_SEARCH emits a
result whose items are exactly the catalog items whose lower-cased name or
description contains the lower-cased query as a substring, in catalog
order (a sublist of the flattened catalog), and whose title is
`Search Results for "<lower-cased query>"` — the lower-cased query, not
the query as typed. -/
theorem generic_search_spec (cats : List MenuCategory) (q : List Char)
    (hb : isBlank q = false)
    (hg : classify (lowerStr q) = Intent.genericTextSearch) :
    ∃ r, handleSearch cats q = some r ∧
      r.title = "Search Results for \"".toList ++ lowerStr q ++ "\"".toList ∧
      List.Sublist r.items (cats.flatMap (·.items)) ∧
      ∀ item, item ∈ r.items ↔
        (item ∈ cats.flatMap (·.items) ∧
          (hasSubstr (lowerStr item.name) (lowerStr q) = true ∨
           hasSubstr (lowerStr item.description) (lowerStr q) = true)) := by
  refine ⟨textSearch cats (lowerStr q), ?_, rfl, List.filter_sublist _, ?_⟩
  · rw [handleSearch_by_intent, hg]
    simp [hb]
  · intro item
    simp [textSearch, List.mem_filter]

/-- Witness for C5 at the query `Pad` against a catalog containing an item
named `Pad Thai`; that item is matched (case-insensitively). -/
theorem generic_search_spec_witness :
    (∃ r, handleSearch demoCatalog "Pad".toList = some r ∧
      r.title = "Search Results for \"".toList ++ lowerStr "Pad".toList ++ "\"".toList ∧
      List.Sublist r.items (demoCatalog.flatMap (·.items)) ∧
      ∀ item, item ∈ r.items ↔
        (item ∈ demoCatalog.flatMap (·.items) ∧
          (hasSubstr (lowerStr item.name) (lowerStr "Pad".toList) = true ∨
           hasSubstr (lowerStr item.description) (lowerStr "Pad".toList) = true))) ∧
    padThaiItem ∈ (textSearch demoCatalog (lowerStr "Pad".toList)).items :=
  ⟨generic_search_spec demoCatalog "Pad".toList (by decide) (by decide), by decide⟩

/-! ### C4 — highest-protein query -/

/-- The flattened catalog restricted to items with a defined protein value
(the filter step of `handleProteinQuery`). -/
def filteredProtein (cats : List MenuCategory) : List MenuItem :=
  (cats.flatMap (·.items)).filter fun item => item.protein != none

/-- The stable descending protein sort of `handleProteinQuery`, before
`slice(0, 5)`. -/
def sortedProtein (cats : List MenuCategory) : List MenuItem :=
  (filteredProtein cats).mergeSort proteinLe

theorem proteinLe_trans (a b c : MenuItem) :
    proteinLe a b → proteinLe b c → proteinLe a c := by
  simp only [proteinLe, decide_eq_true_eq]
  omega

theorem proteinLe_total (a b : MenuItem) : proteinLe a b || proteinLe b a := by
  simp only [proteinLe, Bool.or_eq_true, decide_eq_true_eq]
  omega

/-- C4: the HIGHEST_PROTEIN result is the 5-prefix of the stable
descending-protein sort of the protein-carrying items: it never exceeds 5
items, its protein values are non-increasing, every item in it has a
defined protein value, and a pair of equal-protein items keeps its
original catalog order through the sort. -/
theorem proteinQuery_spec (cats : List MenuCategory) (a b : MenuItem)
    (hpair : List.Sublist [a, b] (filteredProtein cats))
    (heq : a.protein.getD 0 = b.protein.getD 0) :
    (handleProteinQuery cats).title = "Highest Protein Dishes".toList ∧
    (handleProteinQuery cats).items = (sortedProtein cats).take 5 ∧
    (handleProteinQuery cats).items.length ≤ 5 ∧
    (handleProteinQuery cats).items.Pairwise
      (fun x y => y.protein.getD 0 ≤ x.protein.getD 0) ∧
    (∀ item ∈ (handleProteinQuery cats).items, item.protein ≠ none) ∧
    List.Sublist [a, b] (sortedProtein cats) := by
  refine ⟨rfl, rfl, ?_, ?_, ?_, ?_⟩
  · show ((sortedProtein cats).take 5).length ≤ 5
    simp [List.length_take]
  · show ((sortedProtein cats).take 5).Pairwise _
    have hs : (sortedProtein cats).Pairwise (fun x y => proteinLe x y = true) :=
      List.sorted_mergeSort proteinLe_trans proteinLe_total (filteredProtein cats)
    have ht : ((sortedProtein cats).take 5).Pairwise (fun x y => proteinLe x y = true) :=
      hs.sublist (List.take_sublist 5 _)
    exact ht.imp fun h => by simpa [proteinLe] using h
  · intro item hmem
    have h1 : item ∈ sortedProtein cats := List.take_subset 5 _ hmem
    have h2 : item ∈ filteredProtein cats := List.mem_mergeSort.mp h1
    have h3 := List.of_mem_filter h2
    simpa using h3
  · refine List.pair_sublist_mergeSort proteinLe_trans proteinLe_total ?_ hpair
    simp only [proteinLe, decide_eq_true_eq]
    omega

/-- A third sample item, sharing its protein value with `padThaiItem`
(used by witnesses). -/
def tofuItem : MenuItem :=
  { id := "crispy-tofu".toList
    name := "Crispy Tofu".toList
    description := "Golden fried tofu cubes".toList
    price := 9
    popular := false
    spicy := false
    vegetarian := true
    glutenFree := false
    protein := some 20
    calories := some 400
    options := none }

/-- A sample catalog with two equal-protein items (used by witnesses). -/
def proteinDemoCatalog : List MenuCategory :=
  [{ id := "mains".toList, name := "Mains".toList
     items := [padThaiItem, greenCurryItem, tofuItem] }]

/-- Witness for C4: `padThaiItem` and `tofuItem` both carry protein 20 and
keep their order through the sort; the result has at most 5 items. -/
theorem proteinQuery_spec_witness :
    (handleProteinQuery proteinDemoCatalog).items.length ≤ 5 ∧
    List.Sublist [padThaiItem, tofuItem] (sortedProtein proteinDemoCatalog) :=
  ⟨(proteinQuery_spec proteinDemoCatalog padThaiItem tofuItem (by decide) (by decide)).2.2.1,
   (proteinQuery_spec proteinDemoCatalog padThaiItem tofuItem
      (by decide) (by decide)).2.2.2.2.2⟩

/-! ### C8 — quick lunch options -/

/-- The specification's catalog invariant: item identifiers are unique
within the catalog (no identifier occurs twice across the flattened
item list). -/
def uniqueItemIds (cats : List MenuCategory) : Prop :=
  ((cats.flatMap (·.items)).map (·.id)).Nodup

/-- Specification-side quick-lunch predicate: some category of the catalog
owns the item and has identifier `starters` or `soups`, or the item's
name contains `fried rice` case-insensitively. -/
def quickSpecPred (cats : List MenuCategory) (item : MenuItem) : Bool :=
  (cats.any fun cat =>
    decide (item ∈ cat.items)
      && (cat.id == "starters".toList || cat.id == "soups".toList))
    || hasSubstr (lowerStr item.name) "fried rice".toList

/-- Under unique item identifiers, the code's reverse lookup of the first
category containing an item with the same id agrees with the direct
owning-category test. -/
theorem quick_lookup_eq (item : MenuItem) :
    ∀ (cats : List MenuCategory), uniqueItemIds cats →
      item ∈ cats.flatMap (·.items) →
      (((cats.find? fun cat => cat.items.any fun i => i.id == item.id).map (·.id)
          == some "starters".toList)
        || ((cats.find? fun cat => cat.items.any fun i => i.id == item.id).map (·.id)
          == some "soups".toList))
      = (cats.any fun cat =>
          decide (item ∈ cat.items)
            && (cat.id == "starters".toList || cat.id == "soups".toList)) := by
  intro cats
  induction cats with
  | nil => intro _ hmem; simp at hmem
  | cons c rest ih =>
    intro h hmem
    have hnodup : ((c.items.map (·.id)) ++ ((rest.flatMap (·.items)).map (·.id))).Nodup := by
      simpa [uniqueItemIds, List.map_append] using h
    obtain ⟨hn1, hn2, hdisj⟩ := List.nodup_append.mp hnodup
    by_cases hc : (c.items.any fun i => i.id == item.id) = true
    · have hfind :
          List.find? (fun cat => cat.items.any fun i => i.id == item.id) (c :: rest)
            = some c :=
        List.find?_cons_of_pos _ hc
      have hitemc : item ∈ c.items := by
        rw [List.any_eq_true] at hc
        obtain ⟨i, hi, hid⟩ := hc
        have hideq : i.id = item.id := by simpa using hid
        have hiflat : i ∈ (c :: rest).flatMap (·.items) :=
          List.mem_flatMap.mpr ⟨c, List.mem_cons_self c rest, hi⟩
        have := List.inj_on_of_nodup_map h hiflat hmem hideq
        rwa [this] at hi
      have hrest : (rest.any fun cat =>
          decide (item ∈ cat.items)
            && (cat.id == "starters".toList || cat.id == "soups".toList)) = false := by
        rw [List.any_eq_false]
        intro cat hcat
        by_cases hin : item ∈ cat.items
        · exfalso
          have h1 : item.id ∈ c.items.map (·.id) := List.mem_map_of_mem _ hitemc
          have h2 : item.id ∈ (rest.flatMap (·.items)).map (·.id) :=
            List.mem_map_of_mem _ (List.mem_flatMap.mpr ⟨cat, hcat, hin⟩)
          exact hdisj h1 h2
        · simp [hin]
      rw [hfind, List.any_cons, hrest]
      simp [hitemc]
    · have hfind :
          List.find? (fun cat => cat.items.any fun i => i.id == item.id) (c :: rest)
            = List.find? (fun cat => cat.items.any fun i => i.id == item.id) rest :=
        List.find?_cons_of_neg _ hc
      have hnotc : item ∉ c.items := by
        intro hin
        apply hc
        rw [List.any_eq_true]
        exact ⟨item, hin, by simp⟩
      have hmem2 := hmem
      rw [List.flatMap_cons] at hmem2
      have hmem' : item ∈ rest.flatMap (·.items) := by
        rcases List.mem_append.mp hmem2 with h1 | h2
        · exact absurd h1 hnotc
        · exact h2
      have h' : uniqueItemIds rest := hn2
      rw [hfind, List.any_cons]
      simp only [hnotc, decide_eq_false_iff_not, Bool.false_and, Bool.false_or,
        decide_eq_true_eq]
      rw [ih h' hmem']
      simp [hnotc]

/-- C8: assuming item identifiers are unique within the catalog, the
QUICK_LUNCH result is titled `Quick Lunch Options` and keeps exactly the
flattened catalog items whose owning category has identifier `starters`
or `soups`, or whose name contains `fried rice` case-insensitively. -/
theorem quickOptions_spec (cats : List MenuCategory) (h : uniqueItemIds cats) :
    handleQuickOptions cats =
      { title := "Quick Lunch Options".toList
        items := (cats.flatMap (·.items)).filter (quickSpecPred cats) } := by
  unfold handleQuickOptions
  refine congrArg (SearchResult.mk "Quick Lunch Options".toList) ?_
  apply List.filter_congr
  intro item hmemitem
  dsimp only
  unfold quickSpecPred
  rw [quick_lookup_eq item cats h hmemitem]

/-- A sample two-category catalog with unique item identifiers (used by
witnesses): `tofuItem` sits in `starters`, the others elsewhere. -/
def quickDemoCatalog : List MenuCategory :=
  [{ id := "starters".toList, name := "Starters".toList, items := [tofuItem] },
   { id := "mains".toList, name := "Mains".toList, items := [padThaiItem, greenCurryItem] }]

/-- Witness for C8 at a concrete catalog with unique identifiers. -/
theorem quickOptions_spec_witness :
    handleQuickOptions quickDemoCatalog =
      { title := "Quick Lunch Options".toList
        items := (quickDemoCatalog.flatMap (·.items)).filter (quickSpecPred quickDemoCatalog) } :=
  quickOptions_spec quickDemoCatalog (by unfold uniqueItemIds; decide)

/-! ### C10 — the rendered list comes from the external search hook -/

theorem takeUntilQuote_append (cs : List Char) (h : '"' ∉ cs) :
    takeUntilQuote (cs ++ ['"']) = some cs := by
  induction cs with
  | nil => simp [takeUntilQuote]
  | cons a t ih =>
    have ha : ¬a = '"' := fun hq => h (hq ▸ List.mem_cons_self a t)
    have ht : '"' ∉ t := fun hin => h (List.mem_cons_of_mem _ hin)
    simp [takeUntilQuote, ha, ih ht]

/-- C10: delivering a result to the menu page reports the classifier's
item count to analytics but renders the item list produced by the
external catalog-search mechanism on the query extracted from the
result's title — the quoted text when the title has the quoted
`Search Results for "..."` form, otherwise the entire title. -/
theorem rendered_items_from_external (st : MenuState) (r : SearchResult)
    (ext : List Char → List MenuItem) (t q : List Char) :
    (handleSearchResults st r).2 = r.items.length ∧
    renderedSearchItems (handleSearchResults st r).1 ext
      = some (ext ((extractQuery r.title).getD st.currentQuery)) ∧
    (q ≠ [] → '"' ∉ q → extractQuery (srfLiteral ++ q ++ ['"']) = some q) ∧
    (srfLiteral.isPrefixOf t = false → t ≠ [] → extractQuery t = some t) := by
  refine ⟨rfl, rfl, ?_, ?_⟩
  · intro hq hquote
    rw [List.append_assoc]
    unfold extractQuery
    rw [isPrefixOf_append]
    simp only [if_true]
    rw [List.drop_left]
    cases q with
    | nil => exact absurd rfl hq
    | cons c cs =>
      have hquote' : '"' ∉ cs := fun hin => hquote (List.mem_cons_of_mem _ hin)
      simp [group1After, takeUntilQuote_append cs hquote']
  · intro hpre hne
    unfold extractQuery
    rw [hpre]
    simp [hne]

/-- Witness for C10: a delivered `Spicy Dishes` result with one classifier
item reports count 1, renders the external hook's list for the extracted
query, and the two title shapes extract as described. -/
theorem rendered_items_from_external_witness :
    (handleSearchResults ⟨[], none⟩ ⟨"Spicy Dishes".toList, [padThaiItem]⟩).2
      = [padThaiItem].length ∧
    renderedSearchItems
        (handleSearchResults ⟨[], none⟩ ⟨"Spicy Dishes".toList, [padThaiItem]⟩).1
        (fun _ => [tofuItem])
      = some ((fun _ => [tofuItem])
          ((extractQuery "Spicy Dishes".toList).getD [])) ∧
    extractQuery (srfLiteral ++ "pad".toList ++ ['"']) = some "pad".toList ∧
    extractQuery "Thai Cookery".toList = some "Thai Cookery".toList := by
  refine ⟨?_, ?_, ?_, ?_⟩
  · exact (rendered_items_from_external ⟨[], none⟩ ⟨"Spicy Dishes".toList, [padThaiItem]⟩
      (fun _ => [tofuItem]) "Thai Cookery".toList "pad".toList).1
  · exact (rendered_items_from_external ⟨[], none⟩ ⟨"Spicy Dishes".toList, [padThaiItem]⟩
      (fun _ => [tofuItem]) "Thai Cookery".toList "pad".toList).2.1
  · exact (rendered_items_from_external ⟨[], none⟩ ⟨"Spicy Dishes".toList, [padThaiItem]⟩
      (fun _ => [tofuItem]) "Thai Cookery".toList "pad".toList).2.2.1
      (by decide) (by decide)
  · exact (rendered_items_from_external ⟨[], none⟩ ⟨"Spicy Dishes".toList, [padThaiItem]⟩
      (fun _ => [tofuItem]) "Thai Cookery".toList "pad".toList).2.2.2
      (by decide) (by decide)

end VirtuMenu
